import Mathlib

/-!
Verification of the agent control-plane core of this repository against its
specification.  The embedding below translates, definition by definition, the
plan-approval tool (`packages/core/src/tools/exit-plan-mode.ts`) and the
browser agent loop (`packages/core/src/agents/browser/browserAgent.ts`).
External collaborators (Node's `path.resolve`, `isWithinRoot`, the model
client, the browser) are taken as parameters, so every theorem quantifies over
their behaviour unless a concrete scenario is needed.
-/

namespace GeminiCli

/-! ## Shared string facts -/

/-- A `ToolResult`-style record: `llmContent` is read by the model,
`returnDisplay` is shown to the user. -/
structure ToolResult where
  llmContent : String
  returnDisplay : String
deriving DecidableEq, Repr

/-- Executable prefix test on the underlying character lists (the library's
byte-position based test does not reduce inside the kernel). -/
def strHasPrefix (s p : String) : Bool := List.isPrefixOf p.data s.data

/-- Helper for `stringIncludes`: some suffix of the second list starts with
the first. -/
def charsInclude (pat : List Char) : List Char → Bool
  | [] => List.isPrefixOf pat []
  | c :: rest => List.isPrefixOf pat (c :: rest) || charsInclude pat rest

/-- JavaScript's `String.prototype.includes`, executably. -/
def stringIncludes (s pat : String) : Bool := charsInclude pat.data s.data

theorem head_data_append (p s : String) (c : Char) (hp : p.data.head? = some c) :
    (p ++ s).data.head? = some c := by
  have hd : (p ++ s).data = p.data ++ s.data := String.data_append p s
  rw [hd]
  cases hpd : p.data with
  | nil => rw [hpd] at hp; simp at hp
  | cons a t =>
    rw [hpd] at hp
    simp only [List.head?] at hp
    simp [List.cons_append, List.head?, hp]

theorem string_ne_of_head (s t : String) (c₁ c₂ : Char)
    (h₁ : s.data.head? = some c₁) (h₂ : t.data.head? = some c₂) (hne : c₁ ≠ c₂) :
    s ≠ t := by
  intro h
  rw [h, h₂] at h₁
  exact hne (Option.some.inj h₁.symm)

namespace ExitPlanMode

/-! ## Embedding of `packages/core/src/tools/exit-plan-mode.ts` -/

/-- `ApprovalMode` from `policy/types.ts` as used by this tool. -/
inductive ApprovalMode
  | DEFAULT
  | AUTO_EDIT
deriving DecidableEq, Repr

/-- `getApprovalModeDescription` (exit-plan-mode.ts lines 27–35). -/
def getApprovalModeDescription : ApprovalMode → String
  | ApprovalMode.AUTO_EDIT => "Auto-Edit mode (edits will be applied automatically)"
  | ApprovalMode.DEFAULT => "Default mode (edits will require confirmation)"

/-- `ToolConfirmationOutcome` from `tools.ts`. -/
inductive ToolConfirmationOutcome
  | ProceedOnce
  | ProceedAlways
  | Cancel
deriving DecidableEq, Repr

/-- `PlanApprovalConfirmationPayload`: `{approved, approvalMode?, feedback?}`. -/
structure PlanApprovalConfirmationPayload where
  approved : Bool
  approvalMode : Option ApprovalMode := none
  feedback : Option String := none
deriving DecidableEq, Repr

/-- `ToolConfirmationPayload` tagged union; only the `plan_approval` variant is
inspected by this tool, every other variant is ignored by `onConfirm`. -/
inductive ToolConfirmationPayload
  | plan_approval (p : PlanApprovalConfirmationPayload)
  | other
deriving DecidableEq, Repr

/-- `ExitPlanModeParams`: the tool's single parameter. -/
structure ExitPlanModeParams where
  plan_path : String
deriving DecidableEq, Repr

/-- The filesystem collaborators consumed by the tool:
`path.resolve(targetDir, p)` and `isWithinRoot(candidate, root)`
(`utils/fileUtils.ts`).  Kept abstract so theorems hold for any behaviour. -/
structure PathOps where
  resolve : String → String → String
  isWithinRoot : String → String → Bool

/-- The slice of `Config` the tool reads: `getTargetDir()` and
`storage.getProjectTempPlansDir()`. -/
structure Config where
  targetDir : String
  plansDir : String
deriving DecidableEq, Repr

/-- The mutable fields of `ExitPlanModeInvocation` (lines 109–110) together
with its parameters. -/
structure ExitPlanModeInvocation where
  params : ExitPlanModeParams
  confirmationOutcome : Option ToolConfirmationOutcome := none
  approvalPayload : Option PlanApprovalConfirmationPayload := none
deriving DecidableEq, Repr

/-- A freshly built invocation: both confirmation fields start as `null`. -/
def mkInvocation (p : String) : ExitPlanModeInvocation :=
  { params := { plan_path := p } }

/-- The `onConfirm` callback (lines 134–142): records the outcome, and the
payload only when its type tag is `plan_approval`. -/
def onConfirm (inv : ExitPlanModeInvocation) (outcome : ToolConfirmationOutcome)
    (payload : Option ToolConfirmationPayload) : ExitPlanModeInvocation :=
  { inv with
    confirmationOutcome := some outcome
    approvalPayload :=
      match payload with
      | some (ToolConfirmationPayload.plan_approval p) => some p
      | _ => inv.approvalPayload }

/-- `getValidatedPlanPath` (lines 153–160): the resolved path when it is
within the plans directory, otherwise `null`. -/
def getValidatedPlanPath (ops : PathOps) (cfg : Config)
    (inv : ExitPlanModeInvocation) : Option String :=
  let resolvedPath := ops.resolve cfg.targetDir inv.params.plan_path
  if ops.isWithinRoot resolvedPath cfg.plansDir then some resolvedPath else none

/-- `ToolPlanApprovalConfirmationDetails` minus the `onConfirm` closure, which
is modelled separately by `onConfirm` above. -/
structure ToolPlanApprovalConfirmationDetails where
  title : String
  planPath : String
deriving DecidableEq, Repr

/-- `shouldConfirmExecute` (lines 122–144): `false` (here `none`) when the
plan path is invalid, otherwise the plan-approval confirmation details. -/
def shouldConfirmExecute (ops : PathOps) (cfg : Config)
    (inv : ExitPlanModeInvocation) : Option ToolPlanApprovalConfirmationDetails :=
  match getValidatedPlanPath ops cfg inv with
  | none => none
  | some rp => some { title := "Plan Approval", planPath := rp }

/-- The sandbox-violation error result (execute, lines 164–171). -/
def sandboxErrorResult : ToolResult :=
  { llmContent := "Error: Plan path is outside the designated plans directory."
    returnDisplay := "Error: Plan path is outside the designated plans directory." }

/-- The cancellation result (execute, lines 173–179). -/
def cancelledResult : ToolResult :=
  { llmContent := "User cancelled the plan approval dialog. The plan was not approved and you are still in Plan Mode."
    returnDisplay := "Cancelled" }

/-- The approval result (execute, lines 189–195). -/
def approvedResult (newMode : ApprovalMode) (resolvedPlanPath : String) : ToolResult :=
  { llmContent := "Plan approved. Switching to " ++ (getApprovalModeDescription newMode ++
      (".\n\nThe approved implementation plan is stored at: " ++ (resolvedPlanPath ++
        "\nRead and follow the plan strictly during implementation.")))
    returnDisplay := "Plan approved: " ++ resolvedPlanPath }

/-- JavaScript `a || b` on an optional string: `b` when `a` is absent or
empty (the empty string is falsy). -/
def jsStringOr (s : Option String) (dflt : String) : String :=
  match s with
  | some v => if v = "" then dflt else v
  | none => dflt

/-- The rejection result (execute, lines 196–205); `feedback` is the already
defaulted string. -/
def rejectedResult (feedback : String) (resolvedPlanPath : String) : ToolResult :=
  { llmContent := "Plan rejected. Feedback: " ++ (feedback ++
      ("\n\nThe plan is stored at: " ++ (resolvedPlanPath ++
        "\nRevise the plan based on the feedback.")))
    returnDisplay := "Feedback: " ++ feedback }

/-- `execute` (lines 162–206).  The second component records the single
potential `config.setApprovalMode` call: `some m` means it was called with
`m`, `none` that it was never called. -/
def execute (ops : PathOps) (cfg : Config) (inv : ExitPlanModeInvocation) :
    ToolResult × Option ApprovalMode :=
  match getValidatedPlanPath ops cfg inv with
  | none => (sandboxErrorResult, none)
  | some resolvedPlanPath =>
    if inv.confirmationOutcome = some ToolConfirmationOutcome.Cancel then
      (cancelledResult, none)
    else
      match inv.approvalPayload with
      | some payload =>
        if payload.approved then
          let newMode := payload.approvalMode.getD ApprovalMode.DEFAULT
          (approvedResult newMode resolvedPlanPath, some newMode)
        else
          (rejectedResult (jsStringOr payload.feedback "None") resolvedPlanPath, none)
      | none =>
        (rejectedResult (jsStringOr none "None") resolvedPlanPath, none)

/-- Modelled from the spec: the path-containment check
`isWithinRoot(candidate, root)` of `utils/fileUtils.ts`, which is not part of
the excerpt — a candidate is within the root when it equals the root or
extends it past a path separator.  Used only to build concrete scenarios. -/
def mockIsWithinRoot (candidate root : String) : Bool :=
  candidate == root || strHasPrefix candidate (root ++ "/")

/-- Modelled from the spec: Node's `path.resolve(targetDir, p)` on the
concrete test inputs — an absolute `p` stands alone, a relative `p` is joined
onto `targetDir`.  Used only to build concrete scenarios. -/
def mockResolve (targetDir p : String) : String :=
  if strHasPrefix p "/" then p else targetDir ++ ("/" ++ p)

/-- The collaborators instantiated for the concrete test scenario. -/
def mockPathOps : PathOps :=
  { resolve := mockResolve, isWithinRoot := mockIsWithinRoot }

/-- The configuration of the test scenario (`/mock/dir`, `/mock/dir/plans`). -/
def mockConfig : Config :=
  { targetDir := "/mock/dir", plansDir := "/mock/dir/plans" }

/-! ### Facts about `execute` -/

theorem getValidatedPlanPath_def (ops : PathOps) (cfg : Config) (inv : ExitPlanModeInvocation) :
    getValidatedPlanPath ops cfg inv =
      if ops.isWithinRoot (ops.resolve cfg.targetDir inv.params.plan_path) cfg.plansDir
      then some (ops.resolve cfg.targetDir inv.params.plan_path) else none := rfl

theorem execute_of_invalid (ops : PathOps) (cfg : Config) (inv : ExitPlanModeInvocation)
    (h : getValidatedPlanPath ops cfg inv = none) :
    execute ops cfg inv = (sandboxErrorResult, none) := by
  unfold execute
  rw [h]

theorem execute_of_valid (ops : PathOps) (cfg : Config) (inv : ExitPlanModeInvocation)
    (rp : String) (hvalid : getValidatedPlanPath ops cfg inv = some rp) :
    execute ops cfg inv =
      if inv.confirmationOutcome = some ToolConfirmationOutcome.Cancel then
        (cancelledResult, none)
      else
        match inv.approvalPayload with
        | some payload =>
          if payload.approved then
            (approvedResult (payload.approvalMode.getD ApprovalMode.DEFAULT) rp,
              some (payload.approvalMode.getD ApprovalMode.DEFAULT))
          else (rejectedResult (jsStringOr payload.feedback "None") rp, none)
        | none => (rejectedResult "None" rp, none) := by
  unfold execute
  rw [hvalid]
  rfl

theorem execute_valid_cases (ops : PathOps) (cfg : Config) (inv : ExitPlanModeInvocation)
    (rp : String) (hvalid : getValidatedPlanPath ops cfg inv = some rp) :
    execute ops cfg inv = (cancelledResult, none) ∨
    (∃ m, execute ops cfg inv = (approvedResult m rp, some m)) ∨
    (∃ f, execute ops cfg inv = (rejectedResult f rp, none)) := by
  rw [execute_of_valid ops cfg inv rp hvalid]
  by_cases hc : inv.confirmationOutcome = some ToolConfirmationOutcome.Cancel
  · left
    rw [if_pos hc]
  · rw [if_neg hc]
    cases hp : inv.approvalPayload with
    | none => exact Or.inr (Or.inr ⟨"None", rfl⟩)
    | some payload =>
      cases ha : payload.approved with
      | true =>
        refine Or.inr (Or.inl ⟨payload.approvalMode.getD ApprovalMode.DEFAULT, ?_⟩)
        simp [ha]
      | false =>
        refine Or.inr (Or.inr ⟨jsStringOr payload.feedback "None", ?_⟩)
        simp [ha]

theorem sandbox_llm_head : sandboxErrorResult.llmContent.data.head? = some 'E' := rfl

theorem approvedResult_llm_head (m : ApprovalMode) (p : String) :
    (approvedResult m p).llmContent.data.head? = some 'P' :=
  head_data_append _ _ _ rfl

theorem approvedResult_display_head (m : ApprovalMode) (p : String) :
    (approvedResult m p).returnDisplay.data.head? = some 'P' :=
  head_data_append _ _ _ rfl

theorem rejectedResult_display_head (f p : String) :
    (rejectedResult f p).returnDisplay.data.head? = some 'F' :=
  head_data_append _ _ _ rfl

theorem rejectedResult_llm_head (f p : String) :
    (rejectedResult f p).llmContent.data.head? = some 'P' :=
  head_data_append _ _ _ rfl

theorem approvedResult_ne_sandbox (m : ApprovalMode) (p : String) :
    approvedResult m p ≠ sandboxErrorResult := fun h =>
  string_ne_of_head _ _ 'P' 'E' (approvedResult_llm_head m p) sandbox_llm_head (by decide)
    (congrArg ToolResult.llmContent h)

theorem rejectedResult_ne_sandbox (f p : String) :
    rejectedResult f p ≠ sandboxErrorResult := fun h =>
  string_ne_of_head _ _ 'P' 'E' (rejectedResult_llm_head f p) sandbox_llm_head (by decide)
    (congrArg ToolResult.llmContent h)

theorem cancelledResult_ne_sandbox : cancelledResult ≠ sandboxErrorResult := by decide

theorem rejectedResult_ne_approved (f p : String) (m : ApprovalMode) (q : String) :
    rejectedResult f p ≠ approvedResult m q := fun h =>
  string_ne_of_head _ _ 'F' 'P' (rejectedResult_display_head f p)
    (approvedResult_display_head m q) (by decide) (congrArg ToolResult.returnDisplay h)

theorem execute_fst_ne_sandbox_of_valid (ops : PathOps) (cfg : Config)
    (inv : ExitPlanModeInvocation) (rp : String)
    (hvalid : getValidatedPlanPath ops cfg inv = some rp) :
    (execute ops cfg inv).1 ≠ sandboxErrorResult := by
  rcases execute_valid_cases ops cfg inv rp hvalid with h | ⟨m, h⟩ | ⟨f, h⟩
  · rw [h]; exact cancelledResult_ne_sandbox
  · rw [h]; exact approvedResult_ne_sandbox m rp
  · rw [h]; exact rejectedResult_ne_sandbox f rp

theorem execute_snd_some (ops : PathOps) (cfg : Config) (inv : ExitPlanModeInvocation)
    (m : ApprovalMode) (h : (execute ops cfg inv).2 = some m) :
    inv.confirmationOutcome ≠ some ToolConfirmationOutcome.Cancel ∧
    ∃ pay, inv.approvalPayload = some pay ∧ pay.approved = true ∧
      m = pay.approvalMode.getD ApprovalMode.DEFAULT := by
  cases hv : getValidatedPlanPath ops cfg inv with
  | none => rw [execute_of_invalid ops cfg inv hv] at h; cases h
  | some rp =>
    rw [execute_of_valid ops cfg inv rp hv] at h
    by_cases hc : inv.confirmationOutcome = some ToolConfirmationOutcome.Cancel
    · rw [if_pos hc] at h; cases h
    · rw [if_neg hc] at h
      refine ⟨hc, ?_⟩
      cases hp : inv.approvalPayload with
      | none => rw [hp] at h; simp at h
      | some payload =>
        rw [hp] at h
        cases ha : payload.approved with
        | false => simp [ha] at h
        | true =>
          simp only [ha, if_true] at h
          exact ⟨payload, rfl, ha, (Option.some.inj h).symm⟩

/-! ### Claim theorems for the plan-approval tool -/

/-- C2: `ExitPlanModeInvocation.execute` returns the sandbox-violation error
result iff resolving `plan_path` against the target directory yields a path
that is not within the plans directory — for every confirmation state of the
invocation, hence independently of whether `shouldConfirmExecute` was ever
called — and on an invalid path the approval mode is never mutated. -/
theorem execute_sandboxError_iff_invalid (ops : PathOps) (cfg : Config)
    (inv : ExitPlanModeInvocation) :
    ((execute ops cfg inv).1 = sandboxErrorResult ↔
      ops.isWithinRoot (ops.resolve cfg.targetDir inv.params.plan_path) cfg.plansDir = false)
    ∧ (ops.isWithinRoot (ops.resolve cfg.targetDir inv.params.plan_path) cfg.plansDir = false →
        execute ops cfg inv = (sandboxErrorResult, none)) := by
  have hdef := getValidatedPlanPath_def ops cfg inv
  cases hw : ops.isWithinRoot (ops.resolve cfg.targetDir inv.params.plan_path) cfg.plansDir with
  | false =>
    have hnone : getValidatedPlanPath ops cfg inv = none := by
      rw [hdef, hw]; rfl
    have he := execute_of_invalid ops cfg inv hnone
    exact ⟨⟨fun _ => rfl, fun _ => by rw [he]⟩, fun _ => he⟩
  | true =>
    have hsome : getValidatedPlanPath ops cfg inv =
        some (ops.resolve cfg.targetDir inv.params.plan_path) := by
      rw [hdef, hw]; rfl
    refine ⟨⟨fun h => ?_, fun h => by cases h⟩, fun h => by cases h⟩
    exact absurd h (execute_fst_ne_sandbox_of_valid ops cfg inv _ hsome)

/-- C5: for a valid plan path, resolving the confirmation with an approving
plan-approval payload makes `execute` switch the approval mode to the
payload's mode (defaulting to `DEFAULT` when unset) and return an
`llmContent` that begins with "Plan approved. Switching to Default mode"
(when that mode is `DEFAULT`), contains the resolved plan path, and directs
the agent to follow the plan. -/
theorem execute_plan_approved_switches_mode (ops : PathOps) (cfg : Config) (p : String)
    (m : Option ApprovalMode) (fb : Option String) (rp : String)
    (hvalid : getValidatedPlanPath ops cfg (mkInvocation p) = some rp) :
    execute ops cfg (onConfirm (mkInvocation p) ToolConfirmationOutcome.ProceedOnce
        (some (ToolConfirmationPayload.plan_approval
          { approved := true, approvalMode := m, feedback := fb }))) =
      (approvedResult (m.getD ApprovalMode.DEFAULT) rp, some (m.getD ApprovalMode.DEFAULT))
    ∧ (m.getD ApprovalMode.DEFAULT = ApprovalMode.DEFAULT →
        ∃ t, (approvedResult (m.getD ApprovalMode.DEFAULT) rp).llmContent =
          "Plan approved. Switching to Default mode" ++ t)
    ∧ (∃ a b, (approvedResult (m.getD ApprovalMode.DEFAULT) rp).llmContent = a ++ (rp ++ b))
    ∧ (approvedResult (m.getD ApprovalMode.DEFAULT) rp).llmContent =
        "Plan approved. Switching to " ++ (getApprovalModeDescription (m.getD ApprovalMode.DEFAULT) ++
          (".\n\nThe approved implementation plan is stored at: " ++ (rp ++
            "\nRead and follow the plan strictly during implementation."))) := by
  have hv2 : getValidatedPlanPath ops cfg (onConfirm (mkInvocation p)
      ToolConfirmationOutcome.ProceedOnce (some (ToolConfirmationPayload.plan_approval
        { approved := true, approvalMode := m, feedback := fb }))) = some rp := hvalid
  refine ⟨?_, ?_, ?_, rfl⟩
  · rw [execute_of_valid ops cfg _ rp hv2]
    rfl
  · intro hm
    rw [hm]
    refine ⟨" (edits will require confirmation)" ++
      (".\n\nThe approved implementation plan is stored at: " ++ (rp ++
        "\nRead and follow the plan strictly during implementation.")), ?_⟩
    show "Plan approved. Switching to " ++ ("Default mode (edits will require confirmation)" ++ _) = _
    rw [show ("Default mode (edits will require confirmation)" : String) =
          "Default mode" ++ " (edits will require confirmation)" from rfl,
        show ("Plan approved. Switching to Default mode" : String) =
          "Plan approved. Switching to " ++ "Default mode" from rfl,
        String.append_assoc ("Default mode" : String), String.append_assoc]
  · refine ⟨"Plan approved. Switching to " ++ (getApprovalModeDescription (m.getD ApprovalMode.DEFAULT) ++
      ".\n\nThe approved implementation plan is stored at: "),
      "\nRead and follow the plan strictly during implementation.", ?_⟩
    show "Plan approved. Switching to " ++ _ = _
    rw [String.append_assoc, String.append_assoc]

/-- C5 witness: the concrete scenario of the test suite. -/
theorem execute_plan_approved_switches_mode_witness :
    execute mockPathOps mockConfig (onConfirm (mkInvocation "plans/test-plan.md")
        ToolConfirmationOutcome.ProceedOnce (some (ToolConfirmationPayload.plan_approval
          { approved := true, approvalMode := some ApprovalMode.DEFAULT, feedback := none }))) =
      (approvedResult ApprovalMode.DEFAULT "/mock/dir/plans/test-plan.md",
        some ApprovalMode.DEFAULT) :=
  (execute_plan_approved_switches_mode mockPathOps mockConfig "plans/test-plan.md"
    (some ApprovalMode.DEFAULT) none "/mock/dir/plans/test-plan.md" (by decide)).1

/-- C6: for a valid plan path, resolving the confirmation with a rejecting
payload makes `execute` return the "Plan rejected. Feedback: ..." content —
surfacing the feedback string, or the literal "None" when absent — instruct a
revision of the plan, and leave the approval mode untouched. -/
theorem execute_plan_rejected_feedback (ops : PathOps) (cfg : Config) (p : String)
    (fb : Option String) (rp : String)
    (hvalid : getValidatedPlanPath ops cfg (mkInvocation p) = some rp) :
    execute ops cfg (onConfirm (mkInvocation p) ToolConfirmationOutcome.ProceedOnce
        (some (ToolConfirmationPayload.plan_approval { approved := false, feedback := fb }))) =
      (rejectedResult (jsStringOr fb "None") rp, none)
    ∧ (∀ f, fb = some f → f ≠ "" → jsStringOr fb "None" = f)
    ∧ (fb = none → jsStringOr fb "None" = "None")
    ∧ (rejectedResult (jsStringOr fb "None") rp).llmContent =
        "Plan rejected. Feedback: " ++ (jsStringOr fb "None" ++
          ("\n\nThe plan is stored at: " ++ (rp ++ "\nRevise the plan based on the feedback.")))
    ∧ (rejectedResult (jsStringOr fb "None") rp).returnDisplay =
        "Feedback: " ++ jsStringOr fb "None" := by
  have hv2 : getValidatedPlanPath ops cfg (onConfirm (mkInvocation p)
      ToolConfirmationOutcome.ProceedOnce (some (ToolConfirmationPayload.plan_approval
        { approved := false, feedback := fb }))) = some rp := hvalid
  refine ⟨?_, ?_, ?_, rfl, rfl⟩
  · rw [execute_of_valid ops cfg _ rp hv2]
    rfl
  · intro f hf hne
    rw [hf]
    simp [jsStringOr, hne]
  · intro h
    rw [h]
    rfl

/-- C6 witness: the concrete rejection scenario of the test suite. -/
theorem execute_plan_rejected_feedback_witness :
    execute mockPathOps mockConfig (onConfirm (mkInvocation "plans/test-plan.md")
        ToolConfirmationOutcome.ProceedOnce (some (ToolConfirmationPayload.plan_approval
          { approved := false, feedback := some "Please add more details." }))) =
      (rejectedResult "Please add more details." "/mock/dir/plans/test-plan.md", none) :=
  (execute_plan_rejected_feedback mockPathOps mockConfig "plans/test-plan.md"
    (some "Please add more details.") "/mock/dir/plans/test-plan.md" (by decide)).1

/-- C7: for a valid plan path, a confirmation resolved with outcome `Cancel`
makes `execute` return the fixed cancellation message whatever payload was
recorded, and the approval mode is only ever mutated by an approved payload
on a non-cancelled outcome. -/
theorem execute_cancel_fixed_message (ops : PathOps) (cfg : Config)
    (inv : ExitPlanModeInvocation) (rp : String)
    (hvalid : getValidatedPlanPath ops cfg inv = some rp)
    (hcancel : inv.confirmationOutcome = some ToolConfirmationOutcome.Cancel) :
    execute ops cfg inv = (cancelledResult, none)
    ∧ cancelledResult.llmContent =
        "User cancelled the plan approval dialog. The plan was not approved and you are still in Plan Mode."
    ∧ ∀ (inv2 : ExitPlanModeInvocation) (m : ApprovalMode),
        (execute ops cfg inv2).2 = some m →
          inv2.confirmationOutcome ≠ some ToolConfirmationOutcome.Cancel ∧
          ∃ pay, inv2.approvalPayload = some pay ∧ pay.approved = true := by
  refine ⟨?_, rfl, ?_⟩
  · rw [execute_of_valid ops cfg inv rp hvalid, if_pos hcancel]
  · intro inv2 m h
    obtain ⟨hne, pay, hpay, happ, _⟩ := execute_snd_some ops cfg inv2 m h
    exact ⟨hne, pay, hpay, happ⟩

/-- C7 witness: cancellation wins even over an approving payload. -/
theorem execute_cancel_fixed_message_witness :
    execute mockPathOps mockConfig (onConfirm (mkInvocation "plans/test-plan.md")
        ToolConfirmationOutcome.Cancel (some (ToolConfirmationPayload.plan_approval
          { approved := true }))) = (cancelledResult, none) :=
  (execute_cancel_fixed_message mockPathOps mockConfig _ "/mock/dir/plans/test-plan.md"
    (by decide) rfl).1

/-- C9 counterexample: with a valid plan path and a confirmation that was
never resolved (`confirmationOutcome` and `approvalPayload` still null),
`execute` does not return an error result — it returns the plan-rejected
message with feedback "None", whose content starts with "Plan", not
"Error". -/
theorem execute_unresolved_not_error :
    execute mockPathOps mockConfig (mkInvocation "plans/test-plan.md") =
      (rejectedResult "None" "/mock/dir/plans/test-plan.md", none)
    ∧ (execute mockPathOps mockConfig (mkInvocation "plans/test-plan.md")).1 ≠ sandboxErrorResult
    ∧ (execute mockPathOps mockConfig (mkInvocation "plans/test-plan.md")).1.llmContent =
        "Plan rejected. Feedback: " ++ ("None" ++ ("\n\nThe plan is stored at: " ++
          ("/mock/dir/plans/test-plan.md" ++ "\nRevise the plan based on the feedback."))) :=
  ⟨by decide, by decide, by decide⟩

/-- C9 amended: calling `execute` with a valid plan path and a never-resolved
confirmation performs no side effect — `setApprovalMode` is not called and no
approval-success result is produced — but it does not fail with an error
result: it returns the plan-rejected result with feedback "None", exactly as
a rejection without feedback would. -/
theorem execute_unresolved_rejects_without_side_effect (ops : PathOps) (cfg : Config)
    (inv : ExitPlanModeInvocation) (rp : String)
    (hvalid : getValidatedPlanPath ops cfg inv = some rp)
    (hout : inv.confirmationOutcome = none)
    (hpay : inv.approvalPayload = none) :
    execute ops cfg inv = (rejectedResult "None" rp, none)
    ∧ ∀ (m : ApprovalMode) (q : String), rejectedResult "None" rp ≠ approvedResult m q := by
  constructor
  · rw [execute_of_valid ops cfg inv rp hvalid, if_neg (by simp [hout]), hpay]
  · intro m q
    exact rejectedResult_ne_approved "None" rp m q

/-- C9 witness: the unresolved invocation of the concrete scenario. -/
theorem execute_unresolved_rejects_without_side_effect_witness :
    execute mockPathOps mockConfig (mkInvocation "plans/test-plan.md") =
      (rejectedResult "None" "/mock/dir/plans/test-plan.md", none) :=
  (execute_unresolved_rejects_without_side_effect mockPathOps mockConfig
    (mkInvocation "plans/test-plan.md") "/mock/dir/plans/test-plan.md"
    (by decide) rfl rfl).1

/-- C10: a present-but-empty feedback string is rendered as the literal
"None" in both `llmContent` and `returnDisplay`, exactly like absent
feedback. -/
theorem execute_empty_feedback_renders_none (ops : PathOps) (cfg : Config) (p : String)
    (rp : String) (hvalid : getValidatedPlanPath ops cfg (mkInvocation p) = some rp) :
    execute ops cfg (onConfirm (mkInvocation p) ToolConfirmationOutcome.ProceedOnce
        (some (ToolConfirmationPayload.plan_approval { approved := false, feedback := some "" }))) =
      (rejectedResult "None" rp, none)
    ∧ execute ops cfg (onConfirm (mkInvocation p) ToolConfirmationOutcome.ProceedOnce
        (some (ToolConfirmationPayload.plan_approval { approved := false, feedback := none }))) =
      (rejectedResult "None" rp, none)
    ∧ (rejectedResult "None" rp).llmContent =
        "Plan rejected. Feedback: " ++ ("None" ++ ("\n\nThe plan is stored at: " ++
          (rp ++ "\nRevise the plan based on the feedback.")))
    ∧ (rejectedResult "None" rp).returnDisplay = "Feedback: " ++ "None" := by
  have hv2 : getValidatedPlanPath ops cfg (onConfirm (mkInvocation p)
      ToolConfirmationOutcome.ProceedOnce (some (ToolConfirmationPayload.plan_approval
        { approved := false, feedback := some "" }))) = some rp := hvalid
  have hv3 : getValidatedPlanPath ops cfg (onConfirm (mkInvocation p)
      ToolConfirmationOutcome.ProceedOnce (some (ToolConfirmationPayload.plan_approval
        { approved := false, feedback := none }))) = some rp := hvalid
  refine ⟨?_, ?_, rfl, rfl⟩
  · rw [execute_of_valid ops cfg _ rp hv2]
    rfl
  · rw [execute_of_valid ops cfg _ rp hv3]
    rfl

/-- C10 witness: the empty-feedback scenario at the concrete configuration. -/
theorem execute_empty_feedback_renders_none_witness :
    execute mockPathOps mockConfig (onConfirm (mkInvocation "plans/test-plan.md")
        ToolConfirmationOutcome.ProceedOnce (some (ToolConfirmationPayload.plan_approval
          { approved := false, feedback := some "" }))) =
      (rejectedResult "None" "/mock/dir/plans/test-plan.md", none) :=
  (execute_empty_feedback_renders_none mockPathOps mockConfig "plans/test-plan.md"
    "/mock/dir/plans/test-plan.md" (by decide)).1

end ExitPlanMode

namespace BrowserAgent

/-! ## Embedding of `packages/core/src/agents/browser/browserAgent.ts`

`runTask` is modelled as a fuel-bounded recursion.  Every externally visible
action on the browser layer (overlay handling, tool dispatch, model calls) is
recorded in an effect trace; the model client, screenshot capture, browser
tool results and the current page URL are oracles reading that trace, so each
consultation may answer differently. -/

/-- The browser-layer actions the loop performs, in order. -/
inductive Effect
  | removeOverlay
  | updateBorderOverlay (active capturing : Bool)
  | execTool (name : String)
  | modelCall
deriving DecidableEq, Repr

/-- `args.safety_decision`: `{ decision, explanation }`. -/
structure SafetyDecision where
  decision : String
  explanation : String
deriving DecidableEq, Repr

/-- A function call's arguments: the loop itself only inspects
`safety_decision` and hands the rest to the browser tools unchanged. -/
structure FunctionArgs where
  safety_decision : Option SafetyDecision := none
  rest : List (String × String) := []
deriving DecidableEq, Repr

/-- A browser tool's result object: its `url` field (checked for the
fallback) plus the remaining payload, opaque to the loop. -/
structure FuncResult where
  url : Option String := none
  fields : List (String × String) := []
deriving DecidableEq, Repr

/-- A `Part` of a conversation turn (the `@google/genai` tagged union as used
here). -/
inductive Part
  | text (s : String)
  | inlineData (mimeType data : String)
  | functionCall (name : String) (args : FunctionArgs)
  | functionResponse (name : String) (response : FuncResult) (parts : List Part)

/-- `part.text`, as read by `.map((p) => p.text).join('')`: absent text
renders as the empty string in the join. -/
def partText : Part → String
  | Part.text s => s
  | _ => ""

/-- One conversation turn. -/
structure Content where
  role : String
  parts : List Part

/-- `currentPrompt`: either the initial string or the prior turn's function
responses. -/
inductive CurrentPrompt
  | str (s : String)
  | parts (ps : List Part)

/-- `isFunctionResponse` (lines 100–103): the prompt is a nonempty part array
whose first part is a function response. -/
def isFunctionResponsePrompt : CurrentPrompt → Bool
  | CurrentPrompt.parts (Part.functionResponse _ _ _ :: _) => true
  | _ => false

/-- `'functionCall' in p` filter combined with the later `part.functionCall!`
access: the calls of a model turn, in order. -/
def functionCallsOf (parts : List Part) : List (String × FunctionArgs) :=
  parts.filterMap fun p =>
    match p with
    | Part.functionCall n a => some (n, a)
    | _ => none

/-- Outcome of one `browserTools` dispatch: a result, or a thrown error. -/
inductive ToolOutcome
  | ok (r : FuncResult)
  | thrown (msg : String)

/-- Outcome of the initial `browserManager.getPage()` probe. -/
inductive LaunchOutcome
  | ok
  | failed (msg : String)
deriving DecidableEq, Repr

/-- The external collaborators of `runTask`.  `capture` answers with the
screenshot/DOM-snapshot pair (empty strings on failure), `respond` with the
first candidate's content if any, `toolCall` with the dispatched tool's
outcome, `pageUrl` with `page.url()` (`none` when `getPage` throws). -/
structure Env where
  launch : LaunchOutcome
  capture : List Effect → String × String
  respond : List Content → Option Content
  toolCall : List Effect → String → FunctionArgs → ToolOutcome
  pageUrl : List Effect → Option String

/-- The tool names of the dispatch switch (lines 182–231); any other name is
the `default` branch. -/
def knownTools : List String :=
  ["navigate", "click_at", "type_text_at", "scroll_document", "drag_and_drop",
   "pagedown", "pageup", "key_combination", "open_web_browser"]

/-- The capture try/finally block (lines 67–88 and 252–273): remove the
overlay, switch the border to capturing, take the observation, and always
restore the non-capturing active border. -/
def captureState (env : Env) (tr : List Effect) : (String × String) × List Effect :=
  let tr1 := tr ++ [Effect.removeOverlay, Effect.updateBorderOverlay true true]
  (env.capture tr1, tr1 ++ [Effect.updateBorderOverlay true false])

/-- `MAX_ITERATIONS` (line 42). -/
def MAX_ITERATIONS : Nat := 20

/-- The exhaustion message (line 303), naming the iteration bound. -/
def maxStepsMessage : String :=
  "The browser agent reached the maximum number of steps (" ++
    (toString MAX_ITERATIONS ++
      ") without completing the task. Please try refining your prompt or breaking the task into smaller steps.")

/-- The safety-confirmation message (line 178). -/
def safetyMessage (name explanation : String) : String :=
  "Action Required: The model requested a safety confirmation for the action \"" ++
    (name ++ ("\". Please confirm if you want to proceed with: " ++ explanation))

/-- `hasSafetyConfirm args`: the arguments carry
`safety_decision.decision = "require_confirmation"`. -/
def hasSafetyConfirm (args : FunctionArgs) : Bool :=
  match args.safety_decision with
  | some sd => sd.decision == "require_confirmation"
  | none => false

/-- How the loop can end. -/
inductive Terminal
  | playwrightError
  | safetyHalt
  | completed
  | loopExit
deriving DecidableEq, Repr

/-- A finished run: returned string, effect trace, and which return site
produced it. -/
structure RunResult where
  result : String
  trace : List Effect
  terminal : Terminal
deriving DecidableEq, Repr

/-- Exiting the `for` loop (by `break` or by exhausting the iterations) runs
lines 301–303: remove the overlay, deactivate the border, return the
max-steps message. -/
def loopExitResult (tr : List Effect) : RunResult :=
  { result := maxStepsMessage
    trace := tr ++ [Effect.removeOverlay, Effect.updateBorderOverlay false false]
    terminal := Terminal.loopExit }

/-- One tool call's execution (lines 181–296): dispatch (or the unknown-tool
default), the thrown-error catch, the URL fallback, the post-execution
capture, and the assembled function-response part. -/
def execOneCall (env : Env) (tr : List Effect) (name : String) (args : FunctionArgs) :
    Part × List Effect :=
  let dispatched :=
    if knownTools.contains name then
      match env.toolCall tr name args with
      | ToolOutcome.ok r => (r, tr ++ [Effect.execTool name])
      | ToolOutcome.thrown msg =>
        ({ url := none, fields := [("error", msg)] }, tr ++ [Effect.execTool name])
    else
      ({ url := none, fields := [("error", "Unknown tool: " ++ name)] }, tr)
  let res0 := dispatched.1
  let tr1 := dispatched.2
  let res1 :=
    match res0.url with
    | some _ => res0
    | none =>
      match env.pageUrl tr1 with
      | some u => { res0 with url := some u }
      | none => { res0 with url := some "about:blank" }
  let cap := captureState env tr1
  let newScreenshot := cap.1.1
  let newDom := cap.1.2
  let respParts :=
    (if newScreenshot ≠ "" then [Part.inlineData "image/png" newScreenshot] else []) ++
      (if newDom ≠ "" then [Part.text ("current_accessibility_tree:\n" ++ newDom)] else [])
  (Part.functionResponse name res1 respParts, cap.2)

/-- Result of the per-turn `for (const part of functionCalls)` loop. -/
inductive CallsOutcome
  | halted (message : String) (tr : List Effect)
  | done (responses : List Part) (tr : List Effect)

/-- The per-turn tool-call loop (lines 165–297): each call is first checked
for a safety decision — which returns from `runTask` at once — and otherwise
executed, its response collected. -/
def execCalls (env : Env) : List (String × FunctionArgs) → List Effect → List Part → CallsOutcome
  | [], tr, acc => CallsOutcome.done acc tr
  | (name, args) :: rest, tr, acc =>
    match args.safety_decision with
    | some sd =>
      if sd.decision == "require_confirmation" then
        CallsOutcome.halted (safetyMessage name sd.explanation) tr
      else
        let pr := execOneCall env tr name args
        execCalls env rest pr.2 (acc ++ [pr.1])
    | none =>
      let pr := execOneCall env tr name args
      execCalls env rest pr.2 (acc ++ [pr.1])

/-- The new user turn (lines 90–120): the pending prompt, then — unless the
prompt is already a function-response array — the DOM snapshot text and the
screenshot, each only when nonempty. -/
def turnContent (cp : CurrentPrompt) (screenshotBase64 domSnapshot : String) : Content :=
  let promptParts :=
    match cp with
    | CurrentPrompt.str s => [Part.text s]
    | CurrentPrompt.parts ps => ps
  let groundingParts :=
    if isFunctionResponsePrompt cp then []
    else
      (if domSnapshot ≠ "" then [Part.text ("Current Accessibility Tree:\n" ++ domSnapshot)] else []) ++
        (if screenshotBase64 ≠ "" then [Part.inlineData "image/png" screenshotBase64] else [])
  { role := "user", parts := promptParts ++ groundingParts }

/-- Result of one iteration of the main loop. -/
inductive TurnOutcome
  | halt (r : RunResult)
  | next (contents : List Content) (cp : CurrentPrompt) (tr : List Effect)

/-- One iteration of the main loop (lines 63–300): capture, build the user
turn, call the model; no content breaks the loop, zero function calls returns
the concatenated text, a safety decision returns immediately, and otherwise
the tool responses become the next pending prompt. -/
def runTurn (env : Env) (contents : List Content) (cp : CurrentPrompt)
    (tr : List Effect) : TurnOutcome :=
  let cap := captureState env tr
  let contents1 := contents ++ [turnContent cp cap.1.1 cap.1.2]
  let tr2 := cap.2 ++ [Effect.modelCall]
  match env.respond contents1 with
  | none => TurnOutcome.halt (loopExitResult tr2)
  | some response =>
    let calls := functionCallsOf response.parts
    if calls.isEmpty then
      TurnOutcome.halt
        { result := String.join (response.parts.map partText)
          trace := tr2 ++ [Effect.removeOverlay]
          terminal := Terminal.completed }
    else
      match execCalls env calls tr2 [] with
      | CallsOutcome.halted message tr3 =>
        TurnOutcome.halt { result := message, trace := tr3, terminal := Terminal.safetyHalt }
      | CallsOutcome.done responses tr3 =>
        TurnOutcome.next (contents1 ++ [response]) (CurrentPrompt.parts responses) tr3

/-- The `for (let i = 0; i < MAX_ITERATIONS; i++)` loop, by fuel. -/
def runLoop (env : Env) : Nat → List Content → CurrentPrompt → List Effect → RunResult
  | 0, _, _, tr => loopExitResult tr
  | Nat.succ fuel, contents, cp, tr =>
    match runTurn env contents cp tr with
    | TurnOutcome.halt r => r
    | TurnOutcome.next contents1 cp1 tr1 => runLoop env fuel contents1 cp1 tr1

/-- The fixed system instruction prefix (lines 37–38). -/
def systemInstruction : String :=
  "You are an expert browser automation agent. Your goal is to fully complete the user's task. Do not stop until the task is completely finished. If you need to perform multiple steps, continue calling tools until the objective is met.\n\nTask: "

/-- `runTask` (lines 34–304): the Playwright probe with its
message-substring check, the initial border activation, and the main loop. -/
def runTask (env : Env) (prompt : String) : RunResult :=
  match env.launch with
  | LaunchOutcome.failed msg =>
    if stringIncludes msg "Playwright is not installed" then
      { result := "Error: " ++ msg, trace := [], terminal := Terminal.playwrightError }
    else
      runLoop env MAX_ITERATIONS [] (CurrentPrompt.str (systemInstruction ++ prompt))
        [Effect.updateBorderOverlay true false]
  | LaunchOutcome.ok =>
    runLoop env MAX_ITERATIONS [] (CurrentPrompt.str (systemInstruction ++ prompt))
      [Effect.updateBorderOverlay true false]

/-- The tool-dispatch events of a trace, in order. -/
def execToolNames (tr : List Effect) : List String :=
  tr.filterMap fun e =>
    match e with
    | Effect.execTool n => some n
    | _ => none

/-- The border-deactivation events of a trace. -/
def borderDeactivations (tr : List Effect) : List Effect :=
  tr.filter fun e =>
    match e with
    | Effect.updateBorderOverlay false _ => true
    | _ => false

/-- The model-call count of a trace. -/
def countModelCalls (tr : List Effect) : Nat :=
  (tr.filter fun e => e = Effect.modelCall).length

/-! ### Concrete environments for the scenarios -/

/-- A model turn consisting of one harmless function call. -/
def pingContent : Content :=
  { role := "model", parts := [Part.functionCall "open_web_browser" {}] }

/-- An environment whose model always asks for one more harmless tool call. -/
def envKeepCalling : Env :=
  { launch := LaunchOutcome.ok
    capture := fun _ => ("", "")
    respond := fun _ => some pingContent
    toolCall := fun _ _ _ => ToolOutcome.ok {}
    pageUrl := fun _ => none }

/-- An environment whose model never returns content. -/
def envNoContent : Env :=
  { launch := LaunchOutcome.ok
    capture := fun _ => ("", "")
    respond := fun _ => none
    toolCall := fun _ _ _ => ToolOutcome.ok {}
    pageUrl := fun _ => none }

/-- An environment whose model immediately requests a safety confirmation for
a `navigate` call. -/
def envSafety : Env :=
  { launch := LaunchOutcome.ok
    capture := fun _ => ("", "")
    respond := fun _ => some { role := "model", parts := [Part.functionCall "navigate"
      { safety_decision := some { decision := "require_confirmation"
                                  explanation := "dangerous" } }] }
    toolCall := fun _ _ _ => ToolOutcome.ok {}
    pageUrl := fun _ => none }

/-! ### Trace facts -/

theorem countModelCalls_append (a b : List Effect) :
    countModelCalls (a ++ b) = countModelCalls a + countModelCalls b := by
  simp [countModelCalls, List.filter_append]

theorem borderDeactivations_append (a b : List Effect) :
    borderDeactivations (a ++ b) = borderDeactivations a ++ borderDeactivations b := by
  simp [borderDeactivations, List.filter_append]

theorem execToolNames_append (a b : List Effect) :
    execToolNames (a ++ b) = execToolNames a ++ execToolNames b := by
  simp [execToolNames, List.filterMap_append]

theorem captureState_trace (env : Env) (tr : List Effect) :
    (captureState env tr).2 =
      tr ++ [Effect.removeOverlay, Effect.updateBorderOverlay true true,
        Effect.updateBorderOverlay true false] := by
  simp [captureState, List.append_assoc]

theorem execOneCall_trace_eq (env : Env) (tr : List Effect) (name : String)
    (args : FunctionArgs) :
    (execOneCall env tr name args).2 =
      tr ++ ((if knownTools.contains name then [Effect.execTool name] else []) ++
        [Effect.removeOverlay, Effect.updateBorderOverlay true true,
          Effect.updateBorderOverlay true false]) := by
  unfold execOneCall
  by_cases hk : knownTools.contains name
  · have hm : name ∈ knownTools := by simpa using hk
    cases h : env.toolCall tr name args with
    | ok r => simp [hk, hm, h, captureState_trace, List.append_assoc]
    | thrown m => simp [hk, hm, h, captureState_trace, List.append_assoc]
  · have hm : ¬(name ∈ knownTools) := by simpa using hk
    simp [hk, hm, captureState_trace, List.append_assoc]

/-- The effects one executed (non-safety) call appends to the trace: the
dispatch event when the tool is known, then the post-execution capture. -/
def oneCallEffects (name : String) : List Effect :=
  (if knownTools.contains name then [Effect.execTool name] else []) ++
    [Effect.removeOverlay, Effect.updateBorderOverlay true true,
      Effect.updateBorderOverlay true false]

theorem execOneCall_trace_effects (env : Env) (tr : List Effect) (name : String)
    (args : FunctionArgs) :
    (execOneCall env tr name args).2 = tr ++ oneCallEffects name :=
  execOneCall_trace_eq env tr name args

theorem oneCallEffects_border (name : String) :
    borderDeactivations (oneCallEffects name) = [] := by
  by_cases hk : knownTools.contains name <;>
    simp [oneCallEffects, hk, borderDeactivations]

theorem oneCallEffects_model (name : String) :
    countModelCalls (oneCallEffects name) = 0 := by
  by_cases hk : knownTools.contains name <;>
    simp [oneCallEffects, hk, countModelCalls]

theorem oneCallEffects_tools (name : String) :
    execToolNames (oneCallEffects name) =
      if knownTools.contains name then [name] else [] := by
  by_cases hk : knownTools.contains name
  · have hm : name ∈ knownTools := by simpa using hk
    simp [oneCallEffects, hk, hm, execToolNames]
  · have hm : ¬(name ∈ knownTools) := by simpa using hk
    simp [oneCallEffects, hk, hm, execToolNames]

theorem capture_trio_border :
    borderDeactivations [Effect.removeOverlay, Effect.updateBorderOverlay true true,
      Effect.updateBorderOverlay true false] = [] := rfl

theorem capture_trio_model :
    countModelCalls [Effect.removeOverlay, Effect.updateBorderOverlay true true,
      Effect.updateBorderOverlay true false] = 0 := rfl

theorem capture_trio_tools :
    execToolNames [Effect.removeOverlay, Effect.updateBorderOverlay true true,
      Effect.updateBorderOverlay true false] = [] := rfl

theorem execCalls_cons_no_safety (env : Env) (name : String) (args : FunctionArgs)
    (rest : List (String × FunctionArgs)) (tr : List Effect) (acc : List Part)
    (hq : hasSafetyConfirm args = false) :
    execCalls env ((name, args) :: rest) tr acc =
      execCalls env rest (execOneCall env tr name args).2
        (acc ++ [(execOneCall env tr name args).1]) := by
  cases hsd : args.safety_decision with
  | none => simp [execCalls, hsd]
  | some sd =>
    have hdec : (sd.decision == "require_confirmation") = false := by
      have h2 := hq
      unfold hasSafetyConfirm at h2
      rw [hsd] at h2
      exact h2
    simp [execCalls, hsd, hdec]

theorem execCalls_cons_safety (env : Env) (name : String) (args : FunctionArgs)
    (sd : SafetyDecision) (rest : List (String × FunctionArgs)) (tr : List Effect)
    (acc : List Part) (hsd : args.safety_decision = some sd)
    (hdec : sd.decision = "require_confirmation") :
    execCalls env ((name, args) :: rest) tr acc =
      CallsOutcome.halted (safetyMessage name sd.explanation) tr := by
  simp [execCalls, hsd, hdec]

theorem execCalls_all_safe_done (env : Env) (calls : List (String × FunctionArgs)) :
    ∀ (tr : List Effect) (acc : List Part),
      (∀ q ∈ calls, hasSafetyConfirm q.2 = false) →
      ∃ resp mid, execCalls env calls tr acc = CallsOutcome.done resp (tr ++ mid) ∧
        borderDeactivations mid = [] ∧ countModelCalls mid = 0 := by
  induction calls with
  | nil =>
    intro tr acc _
    exact ⟨acc, [], by simp [execCalls], rfl, rfl⟩
  | cons q rest ih =>
    intro tr acc hsafe
    obtain ⟨name, args⟩ := q
    have hq : hasSafetyConfirm args = false := hsafe (name, args) (by simp)
    obtain ⟨resp, mid, heq, hb, hc⟩ := ih (execOneCall env tr name args).2
      (acc ++ [(execOneCall env tr name args).1]) (fun r hr => hsafe r (by simp [hr]))
    refine ⟨resp, oneCallEffects name ++ mid, ?_, ?_, ?_⟩
    · rw [execCalls_cons_no_safety env name args rest tr acc hq, heq,
        execOneCall_trace_effects, List.append_assoc]
    · rw [borderDeactivations_append, hb, oneCallEffects_border]
      rfl
    · rw [countModelCalls_append, hc, oneCallEffects_model]

theorem execCalls_first_safety (env : Env) (pre : List (String × FunctionArgs)) :
    ∀ (tr : List Effect) (acc : List Part) (name : String) (args : FunctionArgs)
      (sd : SafetyDecision) (post : List (String × FunctionArgs)),
      (∀ q ∈ pre, hasSafetyConfirm q.2 = false) →
      args.safety_decision = some sd →
      sd.decision = "require_confirmation" →
      ∃ mid, execCalls env (pre ++ (name, args) :: post) tr acc =
        CallsOutcome.halted (safetyMessage name sd.explanation) (tr ++ mid) ∧
        execToolNames mid = (pre.filter fun q => knownTools.contains q.1).map Prod.fst ∧
        borderDeactivations mid = [] ∧ countModelCalls mid = 0 := by
  induction pre with
  | nil =>
    intro tr acc name args sd post _ hsd hdec
    refine ⟨[], ?_, rfl, rfl, rfl⟩
    rw [List.nil_append, execCalls_cons_safety env name args sd post tr acc hsd hdec]
    simp
  | cons q rest ih =>
    intro tr acc name args sd post hpre hsd hdec
    obtain ⟨n2, a2⟩ := q
    have hq : hasSafetyConfirm a2 = false := hpre (n2, a2) (by simp)
    obtain ⟨mid, heq, hnames, hb, hc⟩ := ih (execOneCall env tr n2 a2).2
      (acc ++ [(execOneCall env tr n2 a2).1]) name args sd post
      (fun r hr => hpre r (by simp [hr])) hsd hdec
    refine ⟨oneCallEffects n2 ++ mid, ?_, ?_, ?_, ?_⟩
    · rw [List.cons_append, execCalls_cons_no_safety env n2 a2 _ tr acc hq, heq,
        execOneCall_trace_effects, List.append_assoc]
    · rw [execToolNames_append, hnames, oneCallEffects_tools]
      by_cases hk : knownTools.contains n2
      · have hm : n2 ∈ knownTools := by simpa using hk
        simp [hm, List.filter_cons]
      · have hm : ¬(n2 ∈ knownTools) := by simpa using hk
        simp [hm, List.filter_cons]
    · rw [borderDeactivations_append, hb, oneCallEffects_border]
      rfl
    · rw [countModelCalls_append, hc, oneCallEffects_model]

theorem execCalls_cases (env : Env) (calls : List (String × FunctionArgs)) :
    ∀ (tr : List Effect) (acc : List Part),
      (∃ msg mid, execCalls env calls tr acc = CallsOutcome.halted msg (tr ++ mid) ∧
        borderDeactivations mid = [] ∧ countModelCalls mid = 0) ∨
      (∃ resp mid, execCalls env calls tr acc = CallsOutcome.done resp (tr ++ mid) ∧
        borderDeactivations mid = [] ∧ countModelCalls mid = 0) := by
  induction calls with
  | nil =>
    intro tr acc
    right
    exact ⟨acc, [], by simp [execCalls], rfl, rfl⟩
  | cons q rest ih =>
    intro tr acc
    obtain ⟨name, args⟩ := q
    by_cases hq : hasSafetyConfirm args = true
    · unfold hasSafetyConfirm at hq
      cases hsd : args.safety_decision with
      | none =>
        rw [hsd] at hq
        exact absurd hq (by decide)
      | some sd =>
        rw [hsd] at hq
        have hdec : sd.decision = "require_confirmation" := eq_of_beq hq
        left
        refine ⟨safetyMessage name sd.explanation, [], ?_, rfl, rfl⟩
        rw [execCalls_cons_safety env name args sd rest tr acc hsd hdec]
        simp
    · have hq2 : hasSafetyConfirm args = false := by
        revert hq
        cases hasSafetyConfirm args <;> simp
      rcases ih (execOneCall env tr name args).2 (acc ++ [(execOneCall env tr name args).1]) with
        ⟨msg, mid, heq, hb, hc⟩ | ⟨resp, mid, heq, hb, hc⟩
      · left
        refine ⟨msg, oneCallEffects name ++ mid, ?_, ?_, ?_⟩
        · rw [execCalls_cons_no_safety env name args rest tr acc hq2, heq,
            execOneCall_trace_effects, List.append_assoc]
        · rw [borderDeactivations_append, hb, oneCallEffects_border]
          rfl
        · rw [countModelCalls_append, hc, oneCallEffects_model]
      · right
        refine ⟨resp, oneCallEffects name ++ mid, ?_, ?_, ?_⟩
        · rw [execCalls_cons_no_safety env name args rest tr acc hq2, heq,
            execOneCall_trace_effects, List.append_assoc]
        · rw [borderDeactivations_append, hb, oneCallEffects_border]
          rfl
        · rw [countModelCalls_append, hc, oneCallEffects_model]

/-! ### The main loop -/

theorem runLoop_succ (env : Env) (n : Nat) (contents : List Content) (cp : CurrentPrompt)
    (tr : List Effect) :
    runLoop env (n + 1) contents cp tr =
      match runTurn env contents cp tr with
      | TurnOutcome.halt r => r
      | TurnOutcome.next c1 cp1 tr1 => runLoop env n c1 cp1 tr1 := rfl

theorem bd_modelCall : borderDeactivations [Effect.modelCall] = [] := rfl

theorem bd_exitPair :
    borderDeactivations [Effect.removeOverlay, Effect.updateBorderOverlay false false] =
      [Effect.updateBorderOverlay false false] := rfl

theorem bd_removeOverlay : borderDeactivations [Effect.removeOverlay] = [] := rfl

theorem cm_modelCall : countModelCalls [Effect.modelCall] = 1 := rfl

theorem cm_exitPair :
    countModelCalls [Effect.removeOverlay, Effect.updateBorderOverlay false false] = 0 := rfl

theorem cm_removeOverlay : countModelCalls [Effect.removeOverlay] = 0 := rfl

theorem runLoop_no_content (env : Env) (fuel : Nat) (contents : List Content)
    (cp : CurrentPrompt) (tr : List Effect) (hfuel : fuel ≠ 0)
    (hresp : env.respond (contents ++
      [turnContent cp (captureState env tr).1.1 (captureState env tr).1.2]) = none) :
    runLoop env fuel contents cp tr =
      loopExitResult ((captureState env tr).2 ++ [Effect.modelCall]) := by
  cases fuel with
  | zero => exact absurd rfl hfuel
  | succ n =>
    rw [runLoop_succ]
    have hturn : runTurn env contents cp tr =
        TurnOutcome.halt (loopExitResult ((captureState env tr).2 ++ [Effect.modelCall])) := by
      simp only [runTurn, hresp]
    rw [hturn]

theorem runLoop_keepCalling (env : Env)
    (hresp : ∀ cs, ∃ resp, env.respond cs = some resp ∧ functionCallsOf resp.parts ≠ [] ∧
      ∀ q ∈ functionCallsOf resp.parts, hasSafetyConfirm q.2 = false) :
    ∀ (fuel : Nat) (contents : List Content) (cp : CurrentPrompt) (tr : List Effect),
      (runLoop env fuel contents cp tr).result = maxStepsMessage ∧
      (runLoop env fuel contents cp tr).terminal = Terminal.loopExit ∧
      countModelCalls (runLoop env fuel contents cp tr).trace = countModelCalls tr + fuel := by
  intro fuel
  induction fuel with
  | zero =>
    intro contents cp tr
    refine ⟨rfl, rfl, ?_⟩
    show countModelCalls (tr ++ [Effect.removeOverlay, Effect.updateBorderOverlay false false]) = _
    rw [countModelCalls_append, cm_exitPair]
  | succ n ih =>
    intro contents cp tr
    obtain ⟨resp, hr, hne, hsafe⟩ := hresp (contents ++
      [turnContent cp (captureState env tr).1.1 (captureState env tr).1.2])
    cases hc : functionCallsOf resp.parts with
    | nil => exact absurd hc hne
    | cons c cs =>
      rw [hc] at hsafe
      obtain ⟨resp2, mid, heq, hb, hcm⟩ := execCalls_all_safe_done env (c :: cs)
        ((captureState env tr).2 ++ [Effect.modelCall]) [] hsafe
      have hturn : runTurn env contents cp tr =
          TurnOutcome.next ((contents ++
              [turnContent cp (captureState env tr).1.1 (captureState env tr).1.2]) ++ [resp])
            (CurrentPrompt.parts resp2)
            (((captureState env tr).2 ++ [Effect.modelCall]) ++ mid) := by
        simp only [runTurn, hr, hc, List.isEmpty_cons, Bool.false_eq_true, if_false, heq]
      rw [runLoop_succ, hturn]
      obtain ⟨h1, h2, h3⟩ := ih ((contents ++
          [turnContent cp (captureState env tr).1.1 (captureState env tr).1.2]) ++ [resp])
        (CurrentPrompt.parts resp2)
        (((captureState env tr).2 ++ [Effect.modelCall]) ++ mid)
      refine ⟨h1, h2, ?_⟩
      rw [h3, countModelCalls_append, countModelCalls_append, captureState_trace,
        countModelCalls_append, capture_trio_model, cm_modelCall, hcm]
      omega

theorem runLoop_release (env : Env) :
    ∀ (fuel : Nat) (contents : List Content) (cp : CurrentPrompt) (tr : List Effect),
      borderDeactivations (runLoop env fuel contents cp tr).trace =
        borderDeactivations tr ++
          (if (runLoop env fuel contents cp tr).terminal = Terminal.loopExit
            then [Effect.updateBorderOverlay false false] else [])
      ∧ ((runLoop env fuel contents cp tr).terminal = Terminal.loopExit →
          ∃ t, (runLoop env fuel contents cp tr).trace =
            t ++ [Effect.removeOverlay, Effect.updateBorderOverlay false false])
      ∧ ((runLoop env fuel contents cp tr).terminal = Terminal.completed →
          ∃ t, (runLoop env fuel contents cp tr).trace = t ++ [Effect.removeOverlay]) := by
  intro fuel
  induction fuel with
  | zero =>
    intro contents cp tr
    refine ⟨?_, fun _ => ⟨tr, rfl⟩, fun h => Terminal.noConfusion h⟩
    show borderDeactivations (tr ++ [Effect.removeOverlay, Effect.updateBorderOverlay false false]) = _
    rw [borderDeactivations_append, bd_exitPair]
    rfl
  | succ n ih =>
    intro contents cp tr
    rw [runLoop_succ]
    cases hr : env.respond (contents ++
      [turnContent cp (captureState env tr).1.1 (captureState env tr).1.2]) with
    | none =>
      have hturn : runTurn env contents cp tr =
          TurnOutcome.halt (loopExitResult ((captureState env tr).2 ++ [Effect.modelCall])) := by
        simp only [runTurn, hr]
      rw [hturn]
      refine ⟨?_, fun _ => ⟨_, rfl⟩, fun h => Terminal.noConfusion h⟩
      show borderDeactivations ((((captureState env tr).2 ++ [Effect.modelCall])) ++
        [Effect.removeOverlay, Effect.updateBorderOverlay false false]) = _
      rw [borderDeactivations_append, borderDeactivations_append, captureState_trace,
        borderDeactivations_append, capture_trio_border, bd_modelCall, bd_exitPair]
      simp [loopExitResult]
    | some resp =>
      cases hc : functionCallsOf resp.parts with
      | nil =>
        have hturn : runTurn env contents cp tr =
            TurnOutcome.halt
              { result := String.join (resp.parts.map partText)
                trace := (((captureState env tr).2 ++ [Effect.modelCall])) ++ [Effect.removeOverlay]
                terminal := Terminal.completed } := by
          simp only [runTurn, hr, hc, List.isEmpty_nil, if_true]
        rw [hturn]
        refine ⟨?_, fun h => Terminal.noConfusion h, fun _ => ⟨_, rfl⟩⟩
        show borderDeactivations ((((captureState env tr).2 ++ [Effect.modelCall])) ++
          [Effect.removeOverlay]) = _
        rw [borderDeactivations_append, borderDeactivations_append, captureState_trace,
          borderDeactivations_append, capture_trio_border, bd_modelCall, bd_removeOverlay]
        simp
      | cons c cs =>
        rcases execCalls_cases env (c :: cs) ((captureState env tr).2 ++ [Effect.modelCall]) [] with
          ⟨msg, mid, heq, hb, _⟩ | ⟨resp2, mid, heq, hb, _⟩
        · have hturn : runTurn env contents cp tr =
              TurnOutcome.halt
                { result := msg
                  trace := (((captureState env tr).2 ++ [Effect.modelCall])) ++ mid
                  terminal := Terminal.safetyHalt } := by
            simp only [runTurn, hr, hc, List.isEmpty_cons, Bool.false_eq_true, if_false, heq]
          rw [hturn]
          refine ⟨?_, fun h => Terminal.noConfusion h, fun h => Terminal.noConfusion h⟩
          show borderDeactivations ((((captureState env tr).2 ++ [Effect.modelCall])) ++ mid) = _
          rw [borderDeactivations_append, borderDeactivations_append, captureState_trace,
            borderDeactivations_append, capture_trio_border, bd_modelCall, hb]
          simp
        · have hturn : runTurn env contents cp tr =
              TurnOutcome.next ((contents ++
                  [turnContent cp (captureState env tr).1.1 (captureState env tr).1.2]) ++ [resp])
                (CurrentPrompt.parts resp2)
                (((captureState env tr).2 ++ [Effect.modelCall]) ++ mid) := by
            simp only [runTurn, hr, hc, List.isEmpty_cons, Bool.false_eq_true, if_false, heq]
          rw [hturn]
          obtain ⟨h1, h2, h3⟩ := ih ((contents ++
              [turnContent cp (captureState env tr).1.1 (captureState env tr).1.2]) ++ [resp])
            (CurrentPrompt.parts resp2)
            (((captureState env tr).2 ++ [Effect.modelCall]) ++ mid)
          refine ⟨?_, h2, h3⟩
          rw [h1, borderDeactivations_append, borderDeactivations_append, captureState_trace,
            borderDeactivations_append, capture_trio_border, bd_modelCall, hb]
          simp

theorem runTask_of_ok (env : Env) (prompt : String) (hlaunch : env.launch = LaunchOutcome.ok) :
    runTask env prompt = runLoop env MAX_ITERATIONS []
      (CurrentPrompt.str (systemInstruction ++ prompt))
      [Effect.updateBorderOverlay true false] := by
  unfold runTask
  rw [hlaunch]

/-! ### Claim theorems for the browser agent loop -/

/-- C1: whenever a model turn's function calls contain one whose arguments
carry `safety_decision.decision = "require_confirmation"` (and every earlier
call of that turn does not), the loop halts at that call: it returns the
"Action Required" message naming the tool and the safety explanation, and the
only tools dispatched after this point are the known tools of the calls that
preceded the safety call in the same turn. -/
theorem runLoop_halts_on_safety_decision (env : Env) (fuel : Nat)
    (contents : List Content) (cp : CurrentPrompt) (tr : List Effect) (resp : Content)
    (pre post : List (String × FunctionArgs)) (name : String) (args : FunctionArgs)
    (sd : SafetyDecision)
    (hfuel : fuel ≠ 0)
    (hr : env.respond (contents ++
      [turnContent cp (captureState env tr).1.1 (captureState env tr).1.2]) = some resp)
    (hcalls : functionCallsOf resp.parts = pre ++ (name, args) :: post)
    (hpre : ∀ q ∈ pre, hasSafetyConfirm q.2 = false)
    (hsd : args.safety_decision = some sd)
    (hdec : sd.decision = "require_confirmation") :
    (runLoop env fuel contents cp tr).result = safetyMessage name sd.explanation ∧
    (runLoop env fuel contents cp tr).terminal = Terminal.safetyHalt ∧
    execToolNames (runLoop env fuel contents cp tr).trace =
      execToolNames tr ++ (pre.filter fun q => knownTools.contains q.1).map Prod.fst := by
  cases fuel with
  | zero => exact absurd rfl hfuel
  | succ n =>
    obtain ⟨mid, heq, hnames, _, _⟩ := execCalls_first_safety env pre
      ((captureState env tr).2 ++ [Effect.modelCall]) [] name args sd post hpre hsd hdec
    have hne : (pre ++ (name, args) :: post).isEmpty = false := by
      cases pre <;> rfl
    have hturn : runTurn env contents cp tr =
        TurnOutcome.halt
          { result := safetyMessage name sd.explanation
            trace := (((captureState env tr).2 ++ [Effect.modelCall])) ++ mid
            terminal := Terminal.safetyHalt } := by
      simp only [runTurn, hr, hcalls, hne, Bool.false_eq_true, if_false, heq]
    rw [runLoop_succ, hturn]
    refine ⟨rfl, rfl, ?_⟩
    show execToolNames ((((captureState env tr).2 ++ [Effect.modelCall])) ++ mid) = _
    rw [execToolNames_append, execToolNames_append, captureState_trace,
      execToolNames_append, capture_trio_tools, hnames]
    simp [execToolNames]

/-- C1 witness: a first-turn safety request halts the loop at once. -/
theorem runLoop_halts_on_safety_decision_witness :
    (runLoop envSafety MAX_ITERATIONS [] (CurrentPrompt.str (systemInstruction ++ "task"))
      [Effect.updateBorderOverlay true false]).result =
      safetyMessage "navigate" "dangerous" :=
  (runLoop_halts_on_safety_decision envSafety MAX_ITERATIONS []
    (CurrentPrompt.str (systemInstruction ++ "task")) [Effect.updateBorderOverlay true false]
    { role := "model", parts := [Part.functionCall "navigate"
      { safety_decision := some { decision := "require_confirmation"
                                  explanation := "dangerous" } }] }
    [] [] "navigate"
    { safety_decision := some { decision := "require_confirmation"
                                explanation := "dangerous" } }
    { decision := "require_confirmation", explanation := "dangerous" }
    (by decide) rfl rfl (by simp) rfl rfl).1

/-- C3 counterexample: a run that ends in the safety halt performs no release
at all — its whole trace contains not a single border-deactivation event, so
the per-turn visual affordances are not released on that terminal path. -/
theorem runTask_safety_halt_releases_nothing :
    (runTask envSafety "task").terminal = Terminal.safetyHalt ∧
    borderDeactivations (runTask envSafety "task").trace = [] ∧
    (runTask envSafety "task").result = safetyMessage "navigate" "dangerous" :=
  ⟨by decide, by decide, by decide⟩

/-- C3 amended: only the loop-exit path (iteration ceiling, or the break on a
content-less model response) deactivates the border overlay — the trace holds
a border deactivation exactly when the run ends in `loopExit`, where the last
two effects are the overlay removal and the border deactivation; the
completed-with-text path merely removes the overlay (its last effect), and
the safety-halt and early-error paths release nothing. -/
theorem runTask_release_only_on_loop_exit (env : Env) (prompt : String) :
    borderDeactivations (runTask env prompt).trace =
      (if (runTask env prompt).terminal = Terminal.loopExit
        then [Effect.updateBorderOverlay false false] else [])
    ∧ ((runTask env prompt).terminal = Terminal.loopExit →
        ∃ t, (runTask env prompt).trace =
          t ++ [Effect.removeOverlay, Effect.updateBorderOverlay false false])
    ∧ ((runTask env prompt).terminal = Terminal.completed →
        ∃ t, (runTask env prompt).trace = t ++ [Effect.removeOverlay]) := by
  unfold runTask
  cases hl : env.launch with
  | ok =>
    obtain ⟨h1, h2, h3⟩ := runLoop_release env MAX_ITERATIONS []
      (CurrentPrompt.str (systemInstruction ++ prompt)) [Effect.updateBorderOverlay true false]
    refine ⟨?_, h2, h3⟩
    rw [h1]
    rfl
  | failed msg =>
    dsimp only
    by_cases hs : stringIncludes msg "Playwright is not installed"
    · rw [if_pos hs]
      exact ⟨rfl, fun h => Terminal.noConfusion h, fun h => Terminal.noConfusion h⟩
    · rw [if_neg hs]
      obtain ⟨h1, h2, h3⟩ := runLoop_release env MAX_ITERATIONS []
        (CurrentPrompt.str (systemInstruction ++ prompt)) [Effect.updateBorderOverlay true false]
      refine ⟨?_, h2, h3⟩
      rw [h1]
      rfl

/-- C4 counterexample: when the model returns no content the run does not end
as a completion with an empty result — it returns the maximum-steps message
(after exactly one model call). -/
theorem runTask_no_content_counterexample :
    (runTask envNoContent "task").result = maxStepsMessage ∧
    (runTask envNoContent "task").result ≠ "" ∧
    (runTask envNoContent "task").terminal ≠ Terminal.completed ∧
    countModelCalls (runTask envNoContent "task").trace = 1 :=
  ⟨by decide, by decide, by decide, by decide⟩

/-- C4 amended: if the model call returns no candidate content, the loop
breaks out of the `for` loop and lands on the shared loop-exit return: the
overlays are released and the maximum-steps message — not an empty completed
result — is returned, after exactly one model call. -/
theorem runTask_no_content_exits_with_max_steps (env : Env) (prompt : String)
    (hlaunch : env.launch = LaunchOutcome.ok)
    (hresp : ∀ cs, env.respond cs = none) :
    (runTask env prompt).result = maxStepsMessage ∧
    (runTask env prompt).terminal = Terminal.loopExit ∧
    countModelCalls (runTask env prompt).trace = 1 ∧
    (∃ t, (runTask env prompt).trace =
      t ++ [Effect.removeOverlay, Effect.updateBorderOverlay false false]) ∧
    maxStepsMessage ≠ "" := by
  rw [runTask_of_ok env prompt hlaunch,
    runLoop_no_content env MAX_ITERATIONS _ _ _ (by decide) (hresp _)]
  refine ⟨rfl, rfl, ?_, ⟨_, rfl⟩, by decide⟩
  show countModelCalls (((captureState env [Effect.updateBorderOverlay true false]).2 ++
    [Effect.modelCall]) ++ [Effect.removeOverlay, Effect.updateBorderOverlay false false]) = 1
  rw [countModelCalls_append, countModelCalls_append, captureState_trace,
    countModelCalls_append, capture_trio_model, cm_modelCall, cm_exitPair]
  rfl

/-- C4 witness: the no-content environment at the concrete prompt. -/
theorem runTask_no_content_exits_with_max_steps_witness :
    (runTask envNoContent "task").result = maxStepsMessage :=
  (runTask_no_content_exits_with_max_steps envNoContent "task" rfl (fun _ => rfl)).1

/-- C8: if the model returns a non-empty set of function calls on every turn
and none of them carries a safety decision, `runTask` performs exactly
`MAX_ITERATIONS` (20) model calls and returns the message naming that
bound. -/
theorem runTask_exhausts_at_max_iterations (env : Env) (prompt : String)
    (hlaunch : env.launch = LaunchOutcome.ok)
    (hresp : ∀ cs, ∃ resp, env.respond cs = some resp ∧ functionCallsOf resp.parts ≠ [] ∧
      ∀ q ∈ functionCallsOf resp.parts, hasSafetyConfirm q.2 = false) :
    (runTask env prompt).result = maxStepsMessage ∧
    (runTask env prompt).terminal = Terminal.loopExit ∧
    countModelCalls (runTask env prompt).trace = MAX_ITERATIONS ∧
    (∃ b, maxStepsMessage =
      "The browser agent reached the maximum number of steps (" ++
        (toString MAX_ITERATIONS ++ b)) := by
  rw [runTask_of_ok env prompt hlaunch]
  obtain ⟨h1, h2, h3⟩ := runLoop_keepCalling env hresp MAX_ITERATIONS []
    (CurrentPrompt.str (systemInstruction ++ prompt)) [Effect.updateBorderOverlay true false]
  refine ⟨h1, h2, ?_, ⟨_, rfl⟩⟩
  rw [h3]
  rfl

/-- C8 witness: a model that always asks for one more harmless tool call. -/
theorem runTask_exhausts_at_max_iterations_witness :
    (runTask envKeepCalling "task").result = maxStepsMessage ∧
    countModelCalls (runTask envKeepCalling "task").trace = MAX_ITERATIONS :=
  ⟨(runTask_exhausts_at_max_iterations envKeepCalling "task" rfl
      (fun _ => ⟨pingContent, rfl, by decide, by decide⟩)).1,
    (runTask_exhausts_at_max_iterations envKeepCalling "task" rfl
      (fun _ => ⟨pingContent, rfl, by decide, by decide⟩)).2.2.1⟩

end BrowserAgent

end GeminiCli
